import Mathlib

/-!
Shallow embedding of `src/treeherder/extract/extract_alerts.py`
(`ExtractAlerts.extract`), the extraction orchestration loop that moves
performance-alert records from a MySQL source into a BigQuery destination,
with a Redis-backed checkpoint and schema fingerprint.

Modelling conventions:
* Time values (`created`, `last_updated`, `Date.today()`) are integers
  measured in days; `mo_times.YEAR` and `mo_times.DAY` become the integer
  constants 365 and 1.  `Date.today()` is modelled as a constant of the
  invocation (field `today` of `Settings`).
* The two source tables `performance_alert_summary` and `performance_alert`
  are lists of `Summary` / `Alert` rows; the generated SQL of lines 82-97
  (LEFT JOIN, WHERE, GROUP BY s.id, ORDER BY s.id, LIMIT chunk_size) is
  given its standard SQL semantics by `runGetIds`.
* The snowflake extractor's `construct_docs` reconstructs one document per
  selected summary id, in cursor (id) order; the only document fields the
  loop reads are `created` and `id` (line 113), so a document is modelled
  by its `Summary` row (`fetchDocs`).  The `etl.timestamp` stamp of
  line 108 has no observable effect on any modelled state and is omitted.
* Redis holds the two keys `settings.extractor.key` (checkpoint) and
  `settings.extractor.sql` (fingerprint); `RedisState` has one `Option`
  field per key.  Redis itself is assumed available (the spec makes store
  unavailability fatal for the whole job).
* The fallible collaborator calls (the operator-requested pre-loop
  `merge_shards`, each round's source query / document construction, each
  round's `destination.extend`, and the final `merge_shards`) may raise;
  which of them raise is an input of the model (`FailSpec`).  Python
  exceptions inside the big `try` of lines 40-120 jump to the handler of
  line 121 (`Outcome.caught`); the final merge of lines 126-130 is guarded
  by its own handler.
* The `while True` loop is modelled with explicit fuel; running out of
  fuel (`Outcome.fuelOut`) models an invocation that has not terminated,
  in which case the post-loop code is never reached.
* Every externally visible action is recorded as an `Event`, in program
  order; the final Redis state is the left fold of the events over the
  initial one.  Log calls (`Log.note`/`Log.warning`/`Log.error` as pure
  logging) are not events; `Log.error` raising is modelled by the control
  flow itself.
-/

/-- A row of `treeherder.performance_alert_summary` (the parent table),
restricted to the columns the extraction loop reads: `id`, `created`,
`last_updated`. -/
structure Summary where
  id : Nat
  created : Int
  lastUpdated : Int
deriving Repr, DecidableEq

/-- A row of `treeherder.performance_alert` (the child table), restricted
to the columns the query reads: `summary_id`, `last_updated`. -/
structure Alert where
  summaryId : Nat
  lastUpdated : Int
deriving Repr, DecidableEq

/-- The relational source: the two joined tables. -/
structure DB where
  summaries : List Summary
  alerts : List Alert
deriving Repr, DecidableEq

/-- The persisted checkpoint value `(last_modified, alert_id)` (line 55). -/
abbrev Checkpoint := Int × Nat

/-- The two Redis keys used by the extractor: `settings.extractor.key`
(the checkpoint) and `settings.extractor.sql` (the schema fingerprint).
`none` models an absent key. -/
structure RedisState where
  checkpoint : Option Checkpoint
  fingerprint : Option String
deriving Repr, DecidableEq

/-- The configuration fields the routine reads: `extractor.app_name`
(line 32), `extractor.chunk_size` (lines 96, 118), the canonical SQL text
the schema scan of line 60 produces against the current schema, and the
current date (`Date.today()`, line 80). -/
structure Settings where
  appName : String
  chunkSize : Nat
  canonicalSQL : String
  today : Int
deriving Repr, DecidableEq

/-- Which collaborator calls raise an exception during this invocation:
the operator-requested pre-loop `merge_shards` (line 43), the source
query / document construction of round `k` (lines 102-104), the
`destination.extend` of round `k` (line 109), and the final
`merge_shards` (line 128). -/
structure FailSpec where
  preMergeFails : Bool
  fetchFails : Nat → Bool
  extendFails : Nat → Bool
  finalMergeFails : Bool

/-- An invocation with no injected collaborator failures. -/
def FailSpec.none : FailSpec := ⟨false, fun _ => false, fun _ => false, false⟩

/-- Externally visible actions of the routine, in program order.
`query lm r` is one execution of the extraction SQL with checkpoint
timestamp `lm`; `r = Option.none` means the source raised, `some n` means
`n` documents were constructed.  `extend b ok` is one `destination.extend`
call on batch `b` (`ok = false`: it raised).  `mergeShards ok` is one
`destination.merge_shards` call.  `setCheckpoint` / `setFingerprint` are
the Redis writes of lines 51/114 and 69. -/
inductive Event where
  | mergeShards (ok : Bool)
  | setCheckpoint (c : Checkpoint)
  | setFingerprint (s : String)
  | query (lm : Int) (r : Option Nat)
  | extend (b : List Summary) (ok : Bool)
deriving Repr, DecidableEq

/-- The duration `mo_times.DAY`, in days. -/
def DAY : Int := 1

/-- The duration `mo_times.YEAR`, in days. -/
def YEAR : Int := 365

/-- The cutoff `last_year = Date.today() - YEAR + DAY` (line 80): only records
younger than roughly a year may enter BigQuery. -/
def retentionCutoff (today : Int) : Int := today - YEAR + DAY

/-- The LEFT JOIN of line 85: each summary paired with each of its
alerts, or with `none` when it has no alert. -/
def joinRows (alerts : List Alert) (s : Summary) : List (Summary × Option Alert) :=
  let ms := alerts.filter (fun a => a.summaryId == s.id)
  if ms.isEmpty then [(s, Option.none)] else ms.map (fun a => (s, some a))

/-- The joined relation `performance_alert_summary LEFT JOIN
performance_alert` (lines 84-85). -/
def leftJoin (db : DB) : List (Summary × Option Alert) :=
  db.summaries.flatMap (joinRows db.alerts)

/-- The WHERE clause of lines 86-92: `s.created > last_year AND
(s.last_updated > last_modified OR a.last_updated > last_modified)`.
A NULL `a.last_updated` (unmatched LEFT JOIN row) fails its comparison,
as in SQL. -/
def whereClause (today lm : Int) (r : Summary × Option Alert) : Bool :=
  (retentionCutoff today < r.1.created) &&
    (lm < r.1.lastUpdated ||
      (match r.2 with
       | some a => lm < a.lastUpdated
       | Option.none => false))

/-- The result of the `get_ids` query of lines 82-97: SELECT `s.id` over
the filtered join, GROUP BY `s.id` (deduplicate), ORDER BY `s.id`
(ascending), LIMIT `chunk_size`. -/
def runGetIds (db : DB) (today lm : Int) (cs : Nat) : List Nat :=
  ((((leftJoin db).filter (whereClause today lm)).map
      (fun r => r.1.id)).dedup.insertionSort (· ≤ ·)).take cs

/-- The documents `extractor.construct_docs` accumulates for one round
(lines 101-104): one per selected id, in cursor (ascending id) order,
carrying the summary's `created` and `id`. -/
def fetchDocs (db : DB) (today lm : Int) (cs : Nat) : List Summary :=
  (runGetIds db today lm cs).filterMap
    (fun i => db.summaries.find? (fun s => s.id == i))

/-- How the `while True` loop of lines 74-119 exited: normal `break`,
an exception that escaped to the handler of line 121, or fuel
exhaustion (the modelled invocation has not terminated). -/
inductive LoopExit where
  | done
  | failed
  | fuelOut
deriving Repr, DecidableEq

/-- The loop of lines 74-119.  One round: run the extraction query at
the current checkpoint timestamp `lm` (lines 82-104); `break` if no
document came back (line 105); deliver the batch (line 109); persist the
checkpoint `(last_doc.created, last_doc.id)` (lines 112-116); `break`
when the batch is short (line 118), else loop.  `ff`/`ef` are the fetch
and extend failure flags from `FailSpec`, `k` numbers the rounds; `aid`
is the checkpoint's id component, which the loop threads (lines 55, 113)
but uses only in the progress log of line 75. -/
def extractLoop (db : DB) (cs : Nat) (today : Int) (ff ef : Nat → Bool) :
    Nat → Nat → Int → Nat → List Event × LoopExit
  | 0, _, _, _ => ([], LoopExit.fuelOut)
  | fuel + 1, k, lm, _aid =>
    if ff k then ([Event.query lm Option.none], LoopExit.failed)
    else
      let docs := fetchDocs db today lm cs
      match docs.getLast? with
      | Option.none => ([Event.query lm (some 0)], LoopExit.done)
      | some last =>
        if ef k then
          ([Event.query lm (some docs.length), Event.extend docs false], LoopExit.failed)
        else
          let evs := [Event.query lm (some docs.length), Event.extend docs true,
            Event.setCheckpoint (last.created, last.id)]
          if docs.length < cs then (evs, LoopExit.done)
          else
            let p := extractLoop db cs today ff ef fuel (k + 1) last.created last.id
            (evs ++ p.1, p.2)

/-- The checkpoint write of lines 49-51: when a restart is requested or
no checkpoint is stored, `(0, 0)` is written back immediately. -/
def resetEvents (rs0 : RedisState) (restart : Bool) : List Event :=
  if restart || rs0.checkpoint.isNone then [Event.setCheckpoint (0, 0)] else []

/-- The checkpoint the loop starts from (lines 49-56): `(0, 0)` on
restart or missing state, else the stored value. -/
def startCheckpoint (rs0 : RedisState) (restart : Bool) : Checkpoint :=
  if restart || rs0.checkpoint.isNone then (0, 0) else rs0.checkpoint.getD (0, 0)

/-- The drift test of lines 63-64: a fingerprint is stored and differs
from the canonical SQL the current schema produces. -/
def schemaDrift (rs0 : RedisState) (canonical : String) : Bool :=
  match rs0.fingerprint with
  | some old => old != canonical
  | Option.none => false

/-- How `ExtractAlerts.extract` ended: `configError` is the `Log.error`
of line 33 (raised before the `try`, so it propagates to the caller);
`caught` means the handler of line 121 fired; `fuelOut` models a
non-terminated loop. -/
inductive Outcome where
  | ok
  | caught
  | configError
  | fuelOut
deriving Repr, DecidableEq

/-- The observable result of one `ExtractAlerts.extract` invocation:
events before the loop, events of the loop, events after the loop, and
how it ended. -/
structure ExtractResult where
  pre : List Event
  loopEvs : List Event
  fin : List Event
  outcome : Outcome
deriving Repr

/-- All events of the invocation, in program order. -/
def ExtractResult.trace (r : ExtractResult) : List Event :=
  r.pre ++ r.loopEvs ++ r.fin

/-- Outcome of the invocation as a function of how the loop exited: a
normal `break` reaches line 124 untroubled, a loop exception is caught
at line 121, fuel exhaustion means the invocation never returns. -/
def loopOutcome : LoopExit → Outcome
  | LoopExit.done => Outcome.ok
  | LoopExit.failed => Outcome.caught
  | LoopExit.fuelOut => Outcome.fuelOut

/-- Events after the loop: whenever the loop exited (normally or via the
handler of line 121), the final `merge_shards` of lines 126-130 is
invoked once, its own failure being caught by the handler of line 129.
A non-terminating loop never reaches it. -/
def finEvents (fs : FailSpec) : LoopExit → List Event
  | LoopExit.fuelOut => []
  | _ => [Event.mergeShards (!fs.finalMergeFails)]

/-- The routine `ExtractAlerts.extract` (lines 31-133).  In order: the app-name
check (line 32); the operator-requested pre-loop merge (lines 41-43);
checkpoint recovery/reset (lines 46-56); the schema-drift guard
(lines 63-68), where drift without `force` raises; the unconditional
fingerprint write (line 69); the extraction loop (lines 74-119) whose
exceptions the handler of line 121 catches; and the final merge
(lines 126-130), guarded by its own handler. -/
def extract (S : Settings) (db : DB) (rs0 : RedisState)
    (force restart merge : Bool) (fs : FailSpec) (fuel : Nat) : ExtractResult :=
  if S.appName = "" then ⟨[], [], [], Outcome.configError⟩
  else if merge && fs.preMergeFails then
    ⟨[Event.mergeShards false], [], [Event.mergeShards (!fs.finalMergeFails)], Outcome.caught⟩
  else
    let preMergeEvs := if merge then [Event.mergeShards true] else []
    let rEvs := resetEvents rs0 restart
    if schemaDrift rs0 S.canonicalSQL && !force then
      ⟨preMergeEvs ++ rEvs, [], [Event.mergeShards (!fs.finalMergeFails)], Outcome.caught⟩
    else
      let st := startCheckpoint rs0 restart
      let p := extractLoop db S.chunkSize S.today fs.fetchFails fs.extendFails fuel 0 st.1 st.2
      ⟨preMergeEvs ++ rEvs ++ [Event.setFingerprint S.canonicalSQL], p.1,
        finEvents fs p.2, loopOutcome p.2⟩

/-- Effect of one event on the Redis keys (the only mutable store). -/
def applyEvent (rs : RedisState) : Event → RedisState
  | Event.setCheckpoint c => { rs with checkpoint := some c }
  | Event.setFingerprint s => { rs with fingerprint := some s }
  | _ => rs

/-- Redis state after a list of events. -/
def applyEvents (rs : RedisState) (evs : List Event) : RedisState :=
  evs.foldl applyEvent rs

/-- The checkpoint values written, in order. -/
def checkpointWrites (evs : List Event) : List Checkpoint :=
  evs.filterMap (fun e =>
    match e with
    | Event.setCheckpoint c => some c
    | _ => Option.none)

/-- The successfully delivered batches, in order. -/
def deliveredBatches (evs : List Event) : List (List Summary) :=
  evs.filterMap (fun e =>
    match e with
    | Event.extend b true => some b
    | _ => Option.none)

/-- The outcome (document count, or `Option.none` for a source failure)
of each fetch round, in order. -/
def fetchRounds (evs : List Event) : List (Option Nat) :=
  evs.filterMap (fun e =>
    match e with
    | Event.query _ r => some r
    | _ => Option.none)

/-- Is the event a source query (a read of source rows)? -/
def Event.isQuery : Event → Bool
  | Event.query _ _ => true
  | _ => false

/-- Is the event a shard merge invocation? -/
def Event.isMerge : Event → Bool
  | Event.mergeShards _ => true
  | _ => false

/-- Is the event a checkpoint write? -/
def Event.isSetCheckpoint : Event → Bool
  | Event.setCheckpoint _ => true
  | _ => false

/-- Is the event a fingerprint write? -/
def Event.isSetFingerprint : Event → Bool
  | Event.setFingerprint _ => true
  | _ => false

/-- Does the event list contain a checkpoint write of the zero value
`(0, 0)` with no source query anywhere before it? -/
def zeroWriteBeforeFirstQuery : List Event → Bool
  | [] => false
  | Event.query _ _ :: _ => false
  | Event.setCheckpoint c :: rest =>
    decide (c = ((0 : Int), (0 : Nat))) || zeroWriteBeforeFirstQuery rest
  | _ :: rest => zeroWriteBeforeFirstQuery rest

/-- Lexicographic order on checkpoints `(created, id)`. -/
def cpLe (c1 c2 : Checkpoint) : Bool :=
  c1.1 < c2.1 || (c1.1 = c2.1 && c1.2 ≤ c2.2)

/-- Delivery/commit discipline of one event list: every successful
`extend` is immediately followed by a checkpoint write holding exactly
`(created, id)` of the batch's last record, and every checkpoint write is
immediately preceded by such an `extend`. -/
def checkpointsFollowDelivery : List Event → Bool
  | [] => true
  | Event.extend b true :: rest =>
    (match rest with
     | Event.setCheckpoint c :: rest2 =>
       (match b.getLast? with
        | some d => decide (c = (d.created, d.id))
        | Option.none => false) && checkpointsFollowDelivery rest2
     | _ => false)
  | Event.setCheckpoint _ :: _ => false
  | _ :: rest => checkpointsFollowDelivery rest

/-- Modelled from the spec's §4.3 wording (the claim-side counterpart of
the generated query, for refinement): a parent row is eligible when its
`created` is after the retention cutoff and the parent or any joined
child row was updated after the checkpoint timestamp. -/
def specEligible (db : DB) (today lm : Int) (s : Summary) : Bool :=
  (retentionCutoff today < s.created) &&
    (lm < s.lastUpdated ||
      db.alerts.any (fun a => a.summaryId == s.id && lm < a.lastUpdated))

/-! ### Helper lemmas -/

theorem cfd_nil : checkpointsFollowDelivery [] = true := rfl

theorem cfd_query (lm : Int) (r : Option Nat) (rest : List Event) :
    checkpointsFollowDelivery (Event.query lm r :: rest) =
      checkpointsFollowDelivery rest := rfl

theorem cfd_merge (ok : Bool) (rest : List Event) :
    checkpointsFollowDelivery (Event.mergeShards ok :: rest) =
      checkpointsFollowDelivery rest := rfl

theorem cfd_extend_false (b : List Summary) (rest : List Event) :
    checkpointsFollowDelivery (Event.extend b false :: rest) =
      checkpointsFollowDelivery rest := rfl

theorem cfd_extend_true (b : List Summary) (c : Checkpoint) (rest : List Event) :
    checkpointsFollowDelivery (Event.extend b true :: Event.setCheckpoint c :: rest) =
      ((match b.getLast? with
        | some d => decide (c = (d.created, d.id))
        | Option.none => false) && checkpointsFollowDelivery rest) := rfl

theorem cfd_loop (db : DB) (cs : Nat) (today : Int) (ff ef : Nat → Bool) :
    ∀ (fuel k : Nat) (lm : Int) (aid : Nat),
      checkpointsFollowDelivery (extractLoop db cs today ff ef fuel k lm aid).1 = true := by
  intro fuel
  induction fuel with
  | zero => intro k lm aid; rfl
  | succ n ih =>
    intro k lm aid
    rw [extractLoop]
    split
    · rfl
    · rcases hl : (fetchDocs db today lm cs).getLast? with _ | last
      · simp only [hl]
        rfl
      · simp only [hl]
        split
        · rfl
        · split
          · simp [cfd_query, cfd_extend_true, cfd_nil, hl]
          · simp [List.cons_append, cfd_query, cfd_extend_true, hl, ih]

/-- C1: in every loop iteration that fetches a non-empty batch, the
checkpoint is persisted only after the batch has been delivered via
`destination.extend`, and the persisted value is exactly the
`(created, id)` pair of the last delivered record of that batch; the
checkpoint is never advanced past records that have not yet been
delivered. -/
theorem extract_commit_follows_delivery (S : Settings) (db : DB) (rs0 : RedisState)
    (force restart merge : Bool) (fs : FailSpec) (fuel : Nat) :
    checkpointsFollowDelivery (extract S db rs0 force restart merge fs fuel).loopEvs = true := by
  by_cases h0 : S.appName = ""
  · simp [extract, h0, cfd_nil]
  · by_cases h1 : (merge && fs.preMergeFails) = true
    · simp [extract, h0, h1, cfd_nil]
    · by_cases h2 : (schemaDrift rs0 S.canonicalSQL && !force) = true
      · simp [extract, h0, h1, h2, cfd_nil]
      · simp [extract, h0, h1, h2, cfd_loop]

/-- C2 (counterexample): with `restart=true`, a stored checkpoint
`(5, 5)`, a stored fingerprint `"OLD"` differing from the current
canonical text `"NEW"`, and `force=false`, the invocation persists the
reset checkpoint `(0, 0)` *before* raising the schema-drift error, so
the persisted checkpoint is changed by the invocation — refuting the
claim's "before any checkpoint mutation ... including restart=true". -/
theorem extract_drift_restart_mutates_checkpoint_cex :
    (let S : Settings := ⟨"app", 2, "NEW", 0⟩
     let db : DB := ⟨[⟨1, 10, 50⟩], []⟩
     let rs0 : RedisState := ⟨some (5, 5), some "OLD"⟩
     let R := extract S db rs0 false true false FailSpec.none 5
     rs0.fingerprint = some "OLD" ∧ "OLD" ≠ "NEW" ∧
       R.trace = [Event.setCheckpoint (0, 0), Event.mergeShards true] ∧
       R.outcome = Outcome.caught ∧
       (applyEvents rs0 R.trace).checkpoint = some (0, 0) ∧
       (applyEvents rs0 R.trace).checkpoint ≠ rs0.checkpoint) := by
  decide

/-- C3 (code evaluation at the failing input): starting from checkpoint
`(0, 0)` with `chunk_size = 2` over three summaries
`(id, created, last_updated) = (1, 50, 10), (2, 100, 20), (3, 30, 150)`,
the run completes normally and commits `(100, 2)` and then `(30, 3)` —
successive checkpoints of one invocation that regress in the
lexicographic `(created, id)` order, because line 113 records
`last_doc.created` while the query of lines 82-97 windows on
`last_updated`. -/
theorem extract_checkpoint_regression_eval :
    (let S : Settings := ⟨"app", 2, "Q", 0⟩
     let db : DB := ⟨[⟨1, 50, 10⟩, ⟨2, 100, 20⟩, ⟨3, 30, 150⟩], []⟩
     let rs0 : RedisState := ⟨some (0, 0), Option.none⟩
     let R := extract S db rs0 false false false FailSpec.none 5
     R.outcome = Outcome.ok ∧
       checkpointWrites R.loopEvs = [(100, 2), (30, 3)] ∧
       cpLe (100, 2) (30, 3) = false) := by
  decide

/-- C4 (code evaluation at the failing input): one summary with
`created = 10 < last_updated = 50`.  The first run delivers it and
commits `(10, 1)`; the second run, with no source change in between,
delivers the same record again (its `last_updated` still exceeds the
committed `created`), instead of delivering zero records.  The
checkpoint is rewritten with the same value. -/
theorem extract_rerun_redelivers_eval :
    (let S : Settings := ⟨"app", 2, "Q", 0⟩
     let db : DB := ⟨[⟨1, 10, 50⟩], []⟩
     let rs0 : RedisState := ⟨some (0, 0), Option.none⟩
     let R1 := extract S db rs0 false false false FailSpec.none 5
     let rs1 := applyEvents rs0 R1.trace
     let R2 := extract S db rs1 false false false FailSpec.none 5
     R1.outcome = Outcome.ok ∧ R2.outcome = Outcome.ok ∧
       rs1.checkpoint = some (10, 1) ∧
       deliveredBatches R2.trace = [[⟨1, 10, 50⟩]] ∧
       (applyEvents rs1 R2.trace).checkpoint = some (10, 1)) := by
  decide

/-- C6 (code evaluation at the failing input): with `chunk_size = 1`
and exactly `2 * chunk_size` initially eligible summaries
`(1, 100, 50)` and `(2, 1, 60)`, the loop performs 2 fetch rounds
returning 1 and 0 documents and makes exactly 1 delivery — not the
claimed 3 rounds `(chunk_size, chunk_size, 0)` with 2 deliveries —
because after committing `created = 100` of record 1, record 2's
`last_updated = 60` no longer clears the window. -/
theorem extract_chunk_boundary_rounds_eval :
    (let S : Settings := ⟨"app", 1, "Q", 0⟩
     let db : DB := ⟨[⟨1, 100, 50⟩, ⟨2, 1, 60⟩], []⟩
     let rs0 : RedisState := ⟨some (0, 0), Option.none⟩
     let R := extract S db rs0 false false false FailSpec.none 5
     (db.summaries.filter (specEligible db 0 0)).length = 2 * S.chunkSize ∧
       R.outcome = Outcome.ok ∧
       fetchRounds R.trace = [some 1, some 0] ∧
       (deliveredBatches R.trace).length = 1) := by
  decide

theorem applyEvents_append (rs : RedisState) (l1 l2 : List Event) :
    applyEvents rs (l1 ++ l2) = applyEvents (applyEvents rs l1) l2 := by
  simp [applyEvents, List.foldl_append]

theorem extractLoop_events_tame (db : DB) (cs : Nat) (today : Int) (ff ef : Nat → Bool) :
    ∀ (fuel k : Nat) (lm : Int) (aid : Nat),
      ((extractLoop db cs today ff ef fuel k lm aid).1.all
        (fun e => !e.isMerge && !e.isSetFingerprint)) = true := by
  intro fuel
  induction fuel with
  | zero => intro k lm aid; rfl
  | succ n ih =>
    intro k lm aid
    rw [extractLoop]
    split
    · rfl
    · rcases hl : (fetchDocs db today lm cs).getLast? with _ | last
      · simp only [hl]
        rfl
      · simp only [hl]
        split
        · rfl
        · split
          · simp [Event.isMerge, Event.isSetFingerprint]
          · have h3 := ih (k + 1) last.created last.id
            simp [Event.isMerge, Event.isSetFingerprint, List.all_eq_true] at h3 ⊢
            exact h3

theorem extractLoop_events_no_merge (db : DB) (cs : Nat) (today : Int)
    (ff ef : Nat → Bool) (fuel k : Nat) (lm : Int) (aid : Nat) :
    ((extractLoop db cs today ff ef fuel k lm aid).1.all (fun e => !e.isMerge)) = true := by
  have h := extractLoop_events_tame db cs today ff ef fuel k lm aid
  simp only [List.all_eq_true, Bool.and_eq_true] at h ⊢
  exact fun e he => (h e he).1

theorem finEvents_of_ne_fuelOut (fs : FailSpec) (ex : LoopExit) (h : ex ≠ LoopExit.fuelOut) :
    finEvents fs ex = [Event.mergeShards (!fs.finalMergeFails)] := by
  cases ex <;> simp_all [finEvents]

theorem ne_fuelOut_of_loopOutcome (ex : LoopExit) (h : loopOutcome ex ≠ Outcome.fuelOut) :
    ex ≠ LoopExit.fuelOut := by
  cases ex <;> simp_all [loopOutcome]

/-- C5: for every invocation with `restart=true`, and likewise for every
invocation that finds no stored checkpoint, the zero checkpoint `(0, 0)`
is persisted to the store before any extraction query runs, and this
write happens independently of whether the subsequent extraction
succeeds or fails (the failure flags `fs` and the schema-drift state are
universally quantified; only a failure of the operator-requested merge
that runs before the checkpoint recovery is excluded). -/
theorem extract_restart_persists_zero_before_read
    (S : Settings) (db : DB) (rs0 : RedisState) (force restart merge : Bool)
    (fs : FailSpec) (fuel : Nat)
    (happ : S.appName ≠ "")
    (hres : restart = true ∨ rs0.checkpoint = Option.none)
    (hpm : ¬(merge = true ∧ fs.preMergeFails = true)) :
    zeroWriteBeforeFirstQuery (extract S db rs0 force restart merge fs fuel).trace = true := by
  have h1 : ¬((merge && fs.preMergeFails) = true) := by
    simp only [Bool.and_eq_true]
    exact hpm
  have hreset : resetEvents rs0 restart = [Event.setCheckpoint (0, 0)] := by
    rcases hres with h | h <;> simp [resetEvents, h]
  by_cases h2 : (schemaDrift rs0 S.canonicalSQL && !force) = true
  · cases merge <;>
      simp [extract, happ, h1, h2, hreset, ExtractResult.trace, zeroWriteBeforeFirstQuery]
  · cases merge <;>
      simp [extract, happ, h1, h2, hreset, ExtractResult.trace, zeroWriteBeforeFirstQuery]

/-- Closed witness for the C5 theorem at a concrete invocation. -/
theorem extract_restart_persists_zero_before_read_witness :
    zeroWriteBeforeFirstQuery
      (extract ⟨"app", 2, "Q", 0⟩ ⟨[⟨1, 10, 50⟩], []⟩ ⟨some (5, 5), some "Q"⟩
        false true false FailSpec.none 5).trace = true :=
  extract_restart_persists_zero_before_read _ _ _ _ _ _ _ _
    (by decide) (Or.inl rfl) (by decide)

/-- C7: whenever the invocation returns (normal loop completion or a
mid-loop failure caught as a transient extraction error), the
destination's shard merge is invoked exactly once after the loop as the
final action of the trace, the loop itself never invokes a merge, and a
failure of that final merge does not affect the outcome derived from
the loop. -/
theorem extract_final_merge_always_once
    (S : Settings) (db : DB) (rs0 : RedisState) (force restart merge : Bool)
    (fs : FailSpec) (fuel : Nat)
    (happ : S.appName ≠ "")
    (hterm : (extract S db rs0 force restart merge fs fuel).outcome ≠ Outcome.fuelOut) :
    (extract S db rs0 force restart merge fs fuel).fin =
        [Event.mergeShards (!fs.finalMergeFails)] ∧
      (extract S db rs0 force restart merge fs fuel).trace.getLast? =
        some (Event.mergeShards (!fs.finalMergeFails)) ∧
      ((extract S db rs0 force restart merge fs fuel).loopEvs.all
        (fun e => !e.isMerge)) = true ∧
      ∀ b : Bool,
        (extract S db rs0 force restart merge
            ⟨fs.preMergeFails, fs.fetchFails, fs.extendFails, b⟩ fuel).outcome =
          (extract S db rs0 force restart merge fs fuel).outcome := by
  by_cases h1 : (merge && fs.preMergeFails) = true
  · refine ⟨?_, ?_, ?_, ?_⟩ <;>
      simp [extract, happ, h1, ExtractResult.trace, List.getLast?_concat]
  · by_cases h2 : (schemaDrift rs0 S.canonicalSQL && !force) = true
    · refine ⟨?_, ?_, ?_, ?_⟩ <;>
        simp [extract, happ, h1, h2, ExtractResult.trace, ← List.append_assoc,
          List.getLast?_concat]
    · simp only [extract, if_neg happ, if_neg h1, if_neg h2] at hterm ⊢
      have hne := ne_fuelOut_of_loopOutcome _ hterm
      have hfin := finEvents_of_ne_fuelOut fs _ hne
      refine ⟨hfin, ?_, ?_, ?_⟩
      · simp [ExtractResult.trace, hfin, ← List.append_assoc, List.getLast?_concat]
      · exact extractLoop_events_no_merge _ _ _ _ _ _ _ _ _
      · intro b
        trivial

/-- Closed witness for the C7 theorem at a concrete invocation. -/
theorem extract_final_merge_always_once_witness :
    (extract ⟨"app", 2, "Q", 0⟩ ⟨[⟨1, 10, 50⟩], []⟩ ⟨some (0, 0), Option.none⟩
          false false false FailSpec.none 5).fin =
        [Event.mergeShards (!FailSpec.none.finalMergeFails)] ∧
      (extract ⟨"app", 2, "Q", 0⟩ ⟨[⟨1, 10, 50⟩], []⟩ ⟨some (0, 0), Option.none⟩
          false false false FailSpec.none 5).trace.getLast? =
        some (Event.mergeShards (!FailSpec.none.finalMergeFails)) ∧
      ((extract ⟨"app", 2, "Q", 0⟩ ⟨[⟨1, 10, 50⟩], []⟩ ⟨some (0, 0), Option.none⟩
          false false false FailSpec.none 5).loopEvs.all (fun e => !e.isMerge)) = true ∧
      ∀ b : Bool,
        (extract ⟨"app", 2, "Q", 0⟩ ⟨[⟨1, 10, 50⟩], []⟩ ⟨some (0, 0), Option.none⟩
            false false false
            ⟨FailSpec.none.preMergeFails, FailSpec.none.fetchFails,
              FailSpec.none.extendFails, b⟩ 5).outcome =
          (extract ⟨"app", 2, "Q", 0⟩ ⟨[⟨1, 10, 50⟩], []⟩ ⟨some (0, 0), Option.none⟩
              false false false FailSpec.none 5).outcome :=
  extract_final_merge_always_once _ _ _ _ _ _ _ _ (by decide) (by decide)

theorem extractLoop_events_no_fp (db : DB) (cs : Nat) (today : Int)
    (ff ef : Nat → Bool) (fuel k : Nat) (lm : Int) (aid : Nat) :
    ((extractLoop db cs today ff ef fuel k lm aid).1.all
      (fun e => !e.isSetFingerprint)) = true := by
  have h := extractLoop_events_tame db cs today ff ef fuel k lm aid
  simp only [List.all_eq_true, Bool.and_eq_true] at h ⊢
  exact fun e he => (h e he).2

theorem applyEvents_fingerprint_preserved (evs : List Event) (rs : RedisState)
    (h : evs.all (fun e => !e.isSetFingerprint) = true) :
    (applyEvents rs evs).fingerprint = rs.fingerprint := by
  induction evs generalizing rs with
  | nil => rfl
  | cons e rest ih =>
    simp only [List.all_cons, Bool.and_eq_true] at h
    have h2 := ih (applyEvent rs e) h.2
    rw [show applyEvents rs (e :: rest) = applyEvents (applyEvent rs e) rest from rfl, h2]
    cases e <;> simp_all [applyEvent, Event.isSetFingerprint]

theorem applyEvents_fingerprint_finEvents (fs : FailSpec) (ex : LoopExit) (rs : RedisState) :
    (applyEvents rs (finEvents fs ex)).fingerprint = rs.fingerprint := by
  cases ex <;> rfl

/-- C9: when a fingerprint is stored, differs from the current canonical
query text, and `force=true`, the invocation proceeds past the drift
check (a warning, not a fatal error), the fingerprint key is overwritten
with the current canonical text (it is the last pre-loop write, and no
later event touches it), and extraction proceeds: the loop issues its
first source query using the current query at the recovered checkpoint
timestamp. -/
theorem extract_force_overwrites_fingerprint
    (S : Settings) (db : DB) (rs0 : RedisState) (restart merge : Bool)
    (fs : FailSpec) (fuel : Nat) (old : String)
    (happ : S.appName ≠ "")
    (_hold : rs0.fingerprint = some old)
    (_hdrift : old ≠ S.canonicalSQL)
    (hpm : ¬(merge = true ∧ fs.preMergeFails = true))
    (hfuel : 0 < fuel) :
    (extract S db rs0 true restart merge fs fuel).pre.getLast? =
        some (Event.setFingerprint S.canonicalSQL) ∧
      (applyEvents rs0 (extract S db rs0 true restart merge fs fuel).trace).fingerprint =
        some S.canonicalSQL ∧
      ∃ r rest, (extract S db rs0 true restart merge fs fuel).loopEvs =
        Event.query (startCheckpoint rs0 restart).1 r :: rest := by
  have h1 : ¬((merge && fs.preMergeFails) = true) := by
    simp only [Bool.and_eq_true]
    exact hpm
  have h2 : ¬((schemaDrift rs0 S.canonicalSQL && !true) = true) := by simp
  obtain ⟨n, rfl⟩ : ∃ n, fuel = n + 1 := ⟨fuel - 1, (Nat.succ_pred_eq_of_pos hfuel).symm⟩
  simp only [extract, if_neg happ, if_neg h1, if_neg h2]
  refine ⟨?_, ?_, ?_⟩
  · simp [← List.append_assoc, List.getLast?_concat]
  · dsimp only [ExtractResult.trace]
    rw [applyEvents_append, applyEvents_append]
    rw [applyEvents_fingerprint_finEvents]
    rw [applyEvents_fingerprint_preserved _ _ (extractLoop_events_no_fp _ _ _ _ _ _ _ _ _)]
    rw [applyEvents_append]
    rfl
  · rw [extractLoop]
    split
    · exact ⟨Option.none, [], rfl⟩
    · rcases hl : (fetchDocs db S.today (startCheckpoint rs0 restart).1 S.chunkSize).getLast?
        with _ | last <;> simp only [hl]
      · exact ⟨some 0, [], rfl⟩
      · split
        · exact ⟨_, _, rfl⟩
        · split
          · exact ⟨_, _, rfl⟩
          · exact ⟨_, _, rfl⟩

/-- Closed witness for the C9 theorem at a concrete invocation. -/
theorem extract_force_overwrites_fingerprint_witness :
    (extract ⟨"app", 2, "NEW", 0⟩ ⟨[⟨1, 10, 50⟩], []⟩ ⟨some (0, 0), some "OLD"⟩
          true false false FailSpec.none 5).pre.getLast? =
        some (Event.setFingerprint (Settings.canonicalSQL ⟨"app", 2, "NEW", 0⟩)) ∧
      (applyEvents ⟨some (0, 0), some "OLD"⟩
          (extract ⟨"app", 2, "NEW", 0⟩ ⟨[⟨1, 10, 50⟩], []⟩ ⟨some (0, 0), some "OLD"⟩
            true false false FailSpec.none 5).trace).fingerprint =
        some (Settings.canonicalSQL ⟨"app", 2, "NEW", 0⟩) ∧
      ∃ r rest,
        (extract ⟨"app", 2, "NEW", 0⟩ ⟨[⟨1, 10, 50⟩], []⟩ ⟨some (0, 0), some "OLD"⟩
            true false false FailSpec.none 5).loopEvs =
          Event.query (startCheckpoint ⟨some (0, 0), some "OLD"⟩ false).1 r :: rest :=
  extract_force_overwrites_fingerprint _ _ _ _ _ _ _ "OLD"
    (by decide) rfl (by decide) (by decide) (by decide)

/-- C10: an iteration whose fetch returns an empty batch ends the loop
before the delivery stage: the invocation's loop trace is a single
source query returning zero documents, `destination.extend` is never
called, the persisted checkpoint ends exactly as loaded (or as reset by
restart), and the invocation completes normally. -/
theorem extract_empty_fetch_no_delivery
    (S : Settings) (db : DB) (rs0 : RedisState) (force restart merge : Bool)
    (fs : FailSpec) (fuel : Nat)
    (happ : S.appName ≠ "")
    (hpm : ¬(merge = true ∧ fs.preMergeFails = true))
    (hnd : ¬((schemaDrift rs0 S.canonicalSQL && !force) = true))
    (hff : fs.fetchFails 0 = false)
    (hfuel : 0 < fuel)
    (hempty : fetchDocs db S.today (startCheckpoint rs0 restart).1 S.chunkSize = []) :
    (extract S db rs0 force restart merge fs fuel).loopEvs =
        [Event.query (startCheckpoint rs0 restart).1 (some 0)] ∧
      deliveredBatches (extract S db rs0 force restart merge fs fuel).trace = [] ∧
      (applyEvents rs0 (extract S db rs0 force restart merge fs fuel).trace).checkpoint =
        some (startCheckpoint rs0 restart) ∧
      (extract S db rs0 force restart merge fs fuel).outcome = Outcome.ok := by
  have h1 : ¬((merge && fs.preMergeFails) = true) := by
    simp only [Bool.and_eq_true]
    exact hpm
  obtain ⟨n, rfl⟩ : ∃ n, fuel = n + 1 := ⟨fuel - 1, (Nat.succ_pred_eq_of_pos hfuel).symm⟩
  have hloop : extractLoop db S.chunkSize S.today fs.fetchFails fs.extendFails (n + 1) 0
      (startCheckpoint rs0 restart).1 (startCheckpoint rs0 restart).2 =
      ([Event.query (startCheckpoint rs0 restart).1 (some 0)], LoopExit.done) := by
    rw [extractLoop]
    simp [hff, hempty]
  simp only [extract, if_neg happ, if_neg h1, if_neg hnd, hloop]
  by_cases hr : (restart || rs0.checkpoint.isNone) = true
  · cases merge <;>
      simp [ExtractResult.trace, resetEvents, startCheckpoint, hr, deliveredBatches,
        finEvents, loopOutcome, applyEvents, applyEvent]
  · have hc : ∃ c, rs0.checkpoint = some c := by
      rcases hcc : rs0.checkpoint with _ | c
      · simp [hcc] at hr
      · exact ⟨c, rfl⟩
    obtain ⟨c, hcc⟩ := hc
    have hrr : restart = false := by
      rcases Bool.eq_false_or_eq_true restart with h | h
      · simp [h] at hr
      · exact h
    cases merge <;>
      simp [ExtractResult.trace, resetEvents, startCheckpoint, hr, hrr, hcc, deliveredBatches,
        finEvents, loopOutcome, applyEvents, applyEvent]

/-- Closed witness for the C10 theorem at a concrete invocation. -/
theorem extract_empty_fetch_no_delivery_witness :
    (extract ⟨"app", 2, "Q", 0⟩ ⟨[], []⟩ ⟨some (7, 3), some "Q"⟩
          false false false FailSpec.none 5).loopEvs =
        [Event.query (startCheckpoint ⟨some (7, 3), some "Q"⟩ false).1 (some 0)] ∧
      deliveredBatches (extract ⟨"app", 2, "Q", 0⟩ ⟨[], []⟩ ⟨some (7, 3), some "Q"⟩
          false false false FailSpec.none 5).trace = [] ∧
      (applyEvents ⟨some (7, 3), some "Q"⟩
          (extract ⟨"app", 2, "Q", 0⟩ ⟨[], []⟩ ⟨some (7, 3), some "Q"⟩
            false false false FailSpec.none 5).trace).checkpoint =
        some (startCheckpoint ⟨some (7, 3), some "Q"⟩ false) ∧
      (extract ⟨"app", 2, "Q", 0⟩ ⟨[], []⟩ ⟨some (7, 3), some "Q"⟩
          false false false FailSpec.none 5).outcome = Outcome.ok :=
  extract_empty_fetch_no_delivery _ _ _ _ _ _ _ _
    (by decide) (by decide) (by decide) rfl (by decide) (by decide)

/-- C2 (amended): for every invocation in which a fingerprint is stored
and differs from the current canonical query text, `force` is false,
`restart` is false, and a checkpoint is stored, the invocation reads
zero source rows, writes no checkpoint, leaves the whole persisted
store (checkpoint and fingerprint) unchanged, and ends in the caught
error state. -/
theorem extract_drift_abort_no_read_no_mutation
    (S : Settings) (db : DB) (rs0 : RedisState) (merge : Bool)
    (fs : FailSpec) (fuel : Nat) (old : String) (c0 : Checkpoint)
    (happ : S.appName ≠ "")
    (hold : rs0.fingerprint = some old)
    (hdrift : old ≠ S.canonicalSQL)
    (hcp : rs0.checkpoint = some c0) :
    ((extract S db rs0 false false merge fs fuel).trace.all (fun e => !e.isQuery)) = true ∧
      checkpointWrites (extract S db rs0 false false merge fs fuel).trace = [] ∧
      applyEvents rs0 (extract S db rs0 false false merge fs fuel).trace = rs0 ∧
      (extract S db rs0 false false merge fs fuel).outcome = Outcome.caught := by
  have hdr : schemaDrift rs0 S.canonicalSQL = true := by
    simp [schemaDrift, hold, bne_iff_ne, hdrift]
  by_cases hpmf : (merge && fs.preMergeFails) = true
  · simp [extract, happ, hpmf, ExtractResult.trace, Event.isQuery, checkpointWrites,
      applyEvents, applyEvent]
  · cases merge <;>
      simp [extract, happ, hpmf, hdr, ExtractResult.trace, resetEvents, hcp,
        Event.isQuery, checkpointWrites, applyEvents, applyEvent]

/-- Closed witness for the amended C2 theorem at a concrete invocation. -/
theorem extract_drift_abort_no_read_no_mutation_witness :
    ((extract ⟨"app", 2, "NEW", 0⟩ ⟨[⟨1, 10, 50⟩], []⟩ ⟨some (7, 3), some "OLD"⟩
          false false false FailSpec.none 5).trace.all (fun e => !e.isQuery)) = true ∧
      checkpointWrites (extract ⟨"app", 2, "NEW", 0⟩ ⟨[⟨1, 10, 50⟩], []⟩
          ⟨some (7, 3), some "OLD"⟩ false false false FailSpec.none 5).trace = [] ∧
      applyEvents ⟨some (7, 3), some "OLD"⟩
          (extract ⟨"app", 2, "NEW", 0⟩ ⟨[⟨1, 10, 50⟩], []⟩ ⟨some (7, 3), some "OLD"⟩
            false false false FailSpec.none 5).trace = ⟨some (7, 3), some "OLD"⟩ ∧
      (extract ⟨"app", 2, "NEW", 0⟩ ⟨[⟨1, 10, 50⟩], []⟩ ⟨some (7, 3), some "OLD"⟩
          false false false FailSpec.none 5).outcome = Outcome.caught :=
  extract_drift_abort_no_read_no_mutation _ _ _ _ _ _ "OLD" (7, 3)
    (by decide) rfl (by decide) rfl

theorem joinRows_fst (alerts : List Alert) (s : Summary) (r : Summary × Option Alert)
    (h : r ∈ joinRows alerts s) : r.1 = s := by
  by_cases hf : (alerts.filter (fun a => a.summaryId == s.id)).isEmpty = true
  · simp only [joinRows, if_pos hf, List.mem_singleton] at h
    rw [h]
  · simp only [joinRows, if_neg hf] at h
    obtain ⟨a, _, rfl⟩ := List.mem_map.mp h
    rfl

theorem joinRows_filter_exists (db : DB) (today lm : Int) (s : Summary) :
    (∃ r ∈ joinRows db.alerts s, whereClause today lm r = true) ↔
      specEligible db today lm s = true := by
  by_cases hf : (db.alerts.filter (fun a => a.summaryId == s.id)).isEmpty = true
  · have hemp : db.alerts.filter (fun a => a.summaryId == s.id) = [] :=
      List.isEmpty_iff.mp hf
    have hany : (db.alerts.any
        (fun a => a.summaryId == s.id && decide (lm < a.lastUpdated))) = false := by
      rw [Bool.eq_false_iff]
      intro hx
      obtain ⟨a, ha, hp⟩ := List.any_eq_true.mp hx
      rw [Bool.and_eq_true] at hp
      have hmem : a ∈ db.alerts.filter (fun a => a.summaryId == s.id) :=
        List.mem_filter.mpr ⟨ha, hp.1⟩
      simp [hemp] at hmem
    simp only [joinRows, if_pos hf]
    simp [whereClause, specEligible, hany]
  · have hne : db.alerts.filter (fun a => a.summaryId == s.id) ≠ [] := by
      intro hx
      exact hf (by simp [hx])
    obtain ⟨a0, ha0⟩ := List.exists_mem_of_ne_nil _ hne
    simp only [joinRows, if_neg hf]
    constructor
    · rintro ⟨r, hr, hw⟩
      obtain ⟨a, ha, rfl⟩ := List.mem_map.mp hr
      have hamem := List.mem_filter.mp ha
      simp only [whereClause, specEligible, Bool.and_eq_true, Bool.or_eq_true,
        decide_eq_true_eq] at hw ⊢
      refine ⟨hw.1, ?_⟩
      rcases hw.2 with h | h
      · exact Or.inl h
      · right
        rw [List.any_eq_true]
        refine ⟨a, hamem.1, ?_⟩
        rw [Bool.and_eq_true]
        exact ⟨hamem.2, by simpa using h⟩
    · intro hs
      simp only [specEligible, Bool.and_eq_true, Bool.or_eq_true, decide_eq_true_eq] at hs
      rcases hs.2 with h | h
      · refine ⟨(s, some a0), List.mem_map.mpr ⟨a0, ha0, rfl⟩, ?_⟩
        simp only [whereClause, Bool.and_eq_true, Bool.or_eq_true, decide_eq_true_eq]
        exact ⟨hs.1, Or.inl h⟩
      · obtain ⟨a, ha, hp⟩ := List.any_eq_true.mp h
        rw [Bool.and_eq_true] at hp
        refine ⟨(s, some a), List.mem_map.mpr ⟨a, List.mem_filter.mpr ⟨ha, hp.1⟩, rfl⟩, ?_⟩
        simp only [whereClause, Bool.and_eq_true, Bool.or_eq_true, decide_eq_true_eq]
        refine ⟨hs.1, Or.inr ?_⟩
        simpa using hp.2

theorem mem_filtered_join_ids (db : DB) (today lm : Int) (i : Nat) :
    i ∈ (((leftJoin db).filter (whereClause today lm)).map (fun r => r.1.id)) ↔
      ∃ s ∈ db.summaries, s.id = i ∧ specEligible db today lm s = true := by
  simp only [List.mem_map, List.mem_filter, leftJoin, List.mem_flatMap]
  constructor
  · rintro ⟨r, ⟨⟨s, hs, hr⟩, hw⟩, rfl⟩
    have hfst := joinRows_fst db.alerts s r hr
    refine ⟨s, hs, by rw [hfst], ?_⟩
    exact (joinRows_filter_exists db today lm s).mp ⟨r, hr, hw⟩
  · rintro ⟨s, hs, rfl, hspec⟩
    obtain ⟨r, hr, hw⟩ := (joinRows_filter_exists db today lm s).mpr hspec
    have hfst := joinRows_fst db.alerts s r hr
    exact ⟨r, ⟨⟨s, hs, hr⟩, hw⟩, by rw [hfst]⟩

theorem mem_spec_ids (db : DB) (today lm : Int) (i : Nat) :
    i ∈ ((db.summaries.filter (specEligible db today lm)).map Summary.id) ↔
      ∃ s ∈ db.summaries, s.id = i ∧ specEligible db today lm s = true := by
  simp only [List.mem_map, List.mem_filter]
  constructor
  · rintro ⟨s, ⟨hs, hspec⟩, rfl⟩
    exact ⟨s, hs, rfl, hspec⟩
  · rintro ⟨s, hs, rfl, hspec⟩
    exact ⟨s, ⟨hs, hspec⟩, rfl⟩

theorem dedup_join_perm (db : DB) (today lm : Int)
    (hids : (db.summaries.map Summary.id).Nodup) :
    (((leftJoin db).filter (whereClause today lm)).map (fun r => r.1.id)).dedup.Perm
      ((db.summaries.filter (specEligible db today lm)).map Summary.id) := by
  have hnd : ((db.summaries.filter (specEligible db today lm)).map Summary.id).Nodup :=
    List.Nodup.sublist (List.Sublist.map _ (List.filter_sublist _)) hids
  refine (List.perm_ext_iff_of_nodup (List.nodup_dedup _) hnd).mpr ?_
  intro a
  rw [List.mem_dedup, mem_filtered_join_ids, mem_spec_ids]

/-- C8: every fetch round's query selects exactly the identifiers of
parent rows created after the retention cutoff (one year minus one day
before today) whose parent row or any joined child row was updated
after the checkpoint's timestamp, deduplicated by parent identifier,
ordered ascending by identifier, and limited to `chunk_size` rows. -/
theorem runGetIds_selects_spec (db : DB) (today lm : Int) (cs : Nat)
    (hids : (db.summaries.map Summary.id).Nodup) :
    runGetIds db today lm cs =
      (((db.summaries.filter (specEligible db today lm)).map
          Summary.id).insertionSort (· ≤ ·)).take cs := by
  unfold runGetIds
  congr 1
  refine List.eq_of_perm_of_sorted ?_ (List.sorted_insertionSort _ _)
    (List.sorted_insertionSort _ _)
  exact ((List.perm_insertionSort _ _).trans (dedup_join_perm db today lm hids)).trans
    (List.perm_insertionSort _ _).symm

/-- Closed witness for the C8 theorem at a concrete database. -/
theorem runGetIds_selects_spec_witness :
    runGetIds ⟨[⟨1, 50, 10⟩, ⟨2, 100, 20⟩, ⟨3, 30, 150⟩], [⟨1, 400⟩]⟩ 0 15 2 =
      ((((DB.summaries ⟨[⟨1, 50, 10⟩, ⟨2, 100, 20⟩, ⟨3, 30, 150⟩], [⟨1, 400⟩]⟩).filter
          (specEligible ⟨[⟨1, 50, 10⟩, ⟨2, 100, 20⟩, ⟨3, 30, 150⟩], [⟨1, 400⟩]⟩ 0 15)).map
            Summary.id).insertionSort (· ≤ ·)).take 2 :=
  runGetIds_selects_spec _ _ _ _ (by decide)
